import Mathlib

/-!
Verification of the pagopar client library core against its specification.

The development shallowly embeds the relevant Python modules:

* `Pagopar.Courier` embeds `pagopar/courier.py` (shipping-option data model
  and `select_shipping_method`).
* `Pagopar.App` embeds `pagopar/_app.py` (the application registry:
  `initialize_app`, `get_app`, `close_app`).
* `Pagopar.Http` embeds the request/response pipeline of `pagopar/_http.py`
  (`create_token`, the payload-signing step of `send_request`, method
  dispatch, and response-envelope decoding).
* `Pagopar.Sync` embeds the discriminated log decoding of `pagopar/sync.py`
  (`parse_syncronization` and the record shapes it decodes).

Python dictionaries are embedded as association lists with
assignment-overwrite semantics, in-place mutation as explicit state passing
(functions return the post-call state of the mutated object), and raised
exceptions as `Except` errors.  External collaborators (aiohttp, hashlib,
msgspec) are embedded at their interface.  The repository module
`pagopar/_errors.py` is referenced by the sources but its body is not
available; the pieces of it that matter are modelled from the spec and
marked as such in their doc comments.
-/

namespace Pagopar

/-- Embedded JSON values (the parsed form of request payload fields and of
response bodies).  Numbers are embedded as integers: every numeric field of
the repository's record shapes is integral. -/
inductive JSON where
  | null : JSON
  | bool : Bool → JSON
  | num : Int → JSON
  | str : String → JSON
  | arr : List JSON → JSON
  | obj : List (String × JSON) → JSON

/-- Python dict assignment `d[k] = v`: overwrite the value when the key is
present, otherwise append a new entry (insertion order preserved). -/
def dictSet (d : List (String × JSON)) (k : String) (v : JSON) :
    List (String × JSON) :=
  if d.any (fun p => p.1 = k) then
    d.map (fun p => if p.1 = k then (k, v) else p)
  else
    d ++ [(k, v)]

/-- Python dict lookup `d.get(k)`. -/
def dictGet (d : List (String × JSON)) (k : String) : Option JSON :=
  (d.find? (fun p => p.1 = k)).map (·.2)

/-- Field access on a JSON object (used by the embedded msgspec decoders). -/
def JSON.field (j : JSON) (k : String) : Option JSON :=
  match j with
  | .obj kvs => dictGet kvs k
  | _ => none

/-- msgspec decoding of a `str` field. -/
def JSON.asStr : JSON → Option String
  | .str s => some s
  | _ => none

/-- msgspec decoding of an `int` field. -/
def JSON.asInt : JSON → Option Int
  | .num n => some n
  | _ => none

/-- msgspec decoding of a `bool` field. -/
def JSON.asBool : JSON → Option Bool
  | .bool b => some b
  | _ => none

/-- msgspec decoding of an optional (`X | None`) field: `null` maps to
`none`, otherwise the inner decoder must succeed. -/
def JSON.asOpt (f : JSON → Option α) : JSON → Option (Option α)
  | .null => some none
  | j => (f j).map some

/-- msgspec decoding of a `list[X]` field. -/
def JSON.asList (f : JSON → Option α) : JSON → Option (List α)
  | .arr xs => xs.mapM f
  | _ => none

namespace Courier

/-- `courier.ShippingMethod`: supported shipping method identifiers. -/
inductive ShippingMethod where
  | AEX
  | MOBI
  | OWN_DELIVERY
  | PICKUP
deriving DecidableEq, Repr

/-- `courier.PickupMethod`: configuration for in-store pickup. -/
structure PickupMethod where
  notes : String
  cost : Int := 0
  delivery_time : Int := 0
deriving DecidableEq, Repr

/-- `courier.DeliveryRule`: a merchant-defined delivery rule. -/
structure DeliveryRule where
  destination_id : String
  price : Int
  delivery_time : Int
deriving DecidableEq, Repr

/-- `courier.DeliveryMethod`: the merchant's own delivery rules. -/
structure DeliveryMethod where
  delivery_rules : List DeliveryRule
deriving DecidableEq, Repr

/-- `courier.CourierOption`: one quoted shipping service of an external
courier. -/
structure CourierOption where
  option_id : String
  description : String
  cost : Int
  delivery_time : String
deriving DecidableEq, Repr

/-- `courier.AEXMethod`: configuration and options for AEX courier
services. -/
structure AEXMethod where
  option_id : Option String
  options : List CourierOption
  delivery_time : Option String
  cost : Int
deriving DecidableEq, Repr

/-- `courier.MOBIMethod`: configuration and options for MOBI courier
services. -/
structure MOBIMethod where
  option_id : Option String
  options : List CourierOption
  delivery_time : Option String
  cost : Int
deriving DecidableEq, Repr

/-- `courier.ShippingOptions`: the container of the four per-item
sub-configurations. -/
structure ShippingOptions where
  pickup_method : Option PickupMethod
  delivery_method : Option DeliveryMethod
  mobi_method : Option MOBIMethod := none
  aex_method : Option AEXMethod := none
deriving DecidableEq, Repr

/-- `courier.ShippingOptionsSelection`: the committed shipping choice,
extending `ShippingOptions` with the selection tag and the final cost. -/
structure ShippingOptionsSelection extends ShippingOptions where
  commerce_commission : Int := 0
  shipping_cost : Int
  selected_method : ShippingMethod
deriving DecidableEq, Repr

/-- The runtime content of the `shipping_options` field of a
`PhysicalItem`: declared as `ShippingOptions`, it holds a plain options set
after freight calculation and a `ShippingOptionsSelection` (a subclass)
after `select_shipping_method` replaced it. -/
inductive ItemShippingOptions where
  | base : ShippingOptions → ItemShippingOptions
  | selection : ShippingOptionsSelection → ItemShippingOptions
deriving DecidableEq, Repr

/-- The `ShippingOptions`-typed view of the field (attribute access on
either the base class or the subclass instance). -/
def ItemShippingOptions.toOptions : ItemShippingOptions → ShippingOptions
  | .base o => o
  | .selection s => s.toShippingOptions

/-- `checkout.BasicItem`: base structure for an order item. -/
structure BasicItem where
  quantity : Int
  description : String
  image_url : String := ""
  name : String
  product_id : Int
  total_price : Int
deriving DecidableEq, Repr

/-- `checkout.Item`: order item with courier and seller information. -/
structure Item extends BasicItem where
  category_id : String := "909"
  city_id : String := "1"
  seller_address : String := ""
  seller_address_ref : String := ""
  seller_address_coordinates : String := ""
  seller_phone : String := ""
  seller_public_key : String
deriving DecidableEq, Repr

/-- `courier.PhysicalItem`: order item that requires shipping
calculation. -/
structure PhysicalItem extends Item where
  weight : String := ""
  length : String := ""
  width : String := ""
  height : String := ""
  shipping_options : ItemShippingOptions
deriving DecidableEq, Repr

/-- The two `ValueError`s of `select_shipping_method`, told apart by their
distinct messages in the source. -/
inductive SelectError where
  /-- ValueError: Missing method config (carries the lowercased method
  name interpolated into the message). -/
  | missingMethodConfig : String → SelectError
  /-- ValueError: Option id is not in method options list. -/
  | invalidOption : SelectError
deriving DecidableEq, Repr

/-- The option search `next(o for o in obj.options if o.option_id ==
option_id)` of `select_shipping_method` (first match; a `None` option id
never equals a string id). -/
def findCourierOption (options : List CourierOption)
    (option_id : Option String) : Option CourierOption :=
  options.find? (fun o => option_id = some o.option_id)

/-- `courier.select_shipping_method`: validates the chosen method and
option against the item's fetched shipping options and replaces the item's
`shipping_options` with a `ShippingOptionsSelection`.  The Python function
mutates `item` in place and returns `None`; the embedding returns the
outcome together with the post-call state of the item (unchanged when an
error is raised). -/
def select_shipping_method (item : PhysicalItem) (method : ShippingMethod)
    (option_id : Option String := none) :
    Except SelectError Unit × PhysicalItem :=
  let shipping_options := item.shipping_options.toOptions
  match method with
  | .AEX =>
    match shipping_options.aex_method with
    | none => (.error (.missingMethodConfig "aex"), item)
    | some obj =>
      match findCourierOption obj.options option_id with
      | none => (.error .invalidOption, item)
      | some option =>
        (.ok (), { item with
          shipping_options := .selection
            { toShippingOptions :=
                { shipping_options with
                  aex_method := some { obj with option_id := option_id } }
              commerce_commission := 0
              shipping_cost := option.cost
              selected_method := method } })
  | .MOBI =>
    match shipping_options.mobi_method with
    | none => (.error (.missingMethodConfig "mobi"), item)
    | some obj =>
      match findCourierOption obj.options option_id with
      | none => (.error .invalidOption, item)
      | some option =>
        (.ok (), { item with
          shipping_options := .selection
            { toShippingOptions :=
                { shipping_options with
                  mobi_method := some { obj with option_id := option_id } }
              commerce_commission := 0
              shipping_cost := option.cost
              selected_method := method } })
  | _ =>
    (.ok (), { item with
      shipping_options := .selection
        { toShippingOptions := shipping_options
          commerce_commission := 0
          shipping_cost := 0
          selected_method := method } })

end Courier

namespace App

/-- `_app._DEFAULT_APP_NAME`. -/
def DEFAULT_APP_NAME : String := "<DEFAULT>"

/-- `_app.Application`: a named bundle of commerce credentials (the
`aiohttp` session it owns is an external resource and is not part of the
embedded state).  `objectId` embeds Python object identity: each
`Application.__init__` call yields a fresh identity, so two applications
created at different times are distinct objects even when their fields
coincide. -/
structure Application where
  objectId : Nat
  name : String
  private_token : String
  public_token : String
  proxy : Option String
deriving DecidableEq, Repr

/-- The process-wide `_apps` dict plus the allocation counter backing
`objectId`.  `initialize_app` only inserts names that are absent, so the
association list mirrors the dict exactly. -/
structure Registry where
  apps : List (String × Application)
  nextObjectId : Nat
deriving DecidableEq, Repr

/-- The registry the process starts with. -/
def Registry.empty : Registry := ⟨[], 0⟩

/-- The process environment as seen by `os.getenv` for the two credential
variables (`none` = variable unset; a set-but-empty variable is
`some ""`). -/
structure Env where
  pagopar_private_token : Option String
  pagopar_public_token : Option String
deriving DecidableEq, Repr

/-- `os.getenv(key, default)`: the environment value when the variable is
set, otherwise the supplied default. -/
def getenv (value : Option String) (default : Option String) :
    Option String :=
  match value with
  | some v => some v
  | none => default

/-- Python truthiness of an optional string (`None` and `""` are falsy). -/
def truthy : Option String → Bool
  | none => false
  | some s => !(s == "")

/-- The errors raised by the registry functions, told apart by their
distinct exception classes and messages in the source. -/
inductive AppError where
  /-- RuntimeError: Missing pagopar commerce credentials. -/
  | missingCredentials
  /-- ValueError: app named `name` already initialized. -/
  | alreadyInitialized : String → AppError
  /-- ValueError: app named `name` not exists. -/
  | notFound : String → AppError
deriving DecidableEq, Repr

/-- The credential pair `initialize_app` works with after the
environment-variable fallback: the fallback block runs whenever either
explicit credential is `None`, and it re-reads both variables (an explicit
credential survives only because `os.getenv` keeps it as the default). -/
def effectiveCredentials (env : Env)
    (private_token public_token : Option String) :
    Option String × Option String :=
  if private_token = none ∨ public_token = none then
    (getenv env.pagopar_private_token private_token,
     getenv env.pagopar_public_token public_token)
  else
    (private_token, public_token)

/-- `_app.initialize_app`: credential check (with environment fallback),
then an atomic check-and-insert into the registry.  The embedding threads
the registry state explicitly and returns it unchanged when an error is
raised. -/
def initialize_app (env : Env)
    (private_token public_token : Option String := none)
    (proxy : Option String := none) (name : String := DEFAULT_APP_NAME)
    (reg : Registry) : Except AppError Application × Registry :=
  let creds := effectiveCredentials env private_token public_token
  if !(truthy creds.1 && truthy creds.2) then
    (.error .missingCredentials, reg)
  else if reg.apps.any (fun p => p.1 = name) then
    (.error (.alreadyInitialized name), reg)
  else
    let app : Application :=
      ⟨reg.nextObjectId, name, creds.1.getD "", creds.2.getD "", proxy⟩
    (.ok app, ⟨reg.apps ++ [(name, app)], reg.nextObjectId + 1⟩)

/-- `_app.get_app`: registry lookup. -/
def get_app (name : String := DEFAULT_APP_NAME) (reg : Registry) :
    Except AppError Application :=
  match reg.apps.find? (fun p => p.1 = name) with
  | some p => .ok p.2
  | none => .error (.notFound name)

/-- `_app.close_app`: look the application up, then delete its registry
entry (`del _apps[name]`); the subsequent closing of the owned aiohttp
session is an external effect outside the embedded state. -/
def close_app (name : String := DEFAULT_APP_NAME) (reg : Registry) :
    Except AppError Unit × Registry :=
  match get_app name reg with
  | .error e => (.error e, reg)
  | .ok _ =>
    (.ok (), { reg with apps := reg.apps.eraseP (fun p => p.1 = name) })

/-- Registry well-formedness, maintained by the three operations: names
are registered at most once (it embeds a dict) and every registered
application was allocated a past identity. -/
def Registry.WF (reg : Registry) : Prop :=
  (reg.apps.map Prod.fst).Nodup ∧
    ∀ p ∈ reg.apps, p.2.objectId < reg.nextObjectId

instance (reg : Registry) : Decidable reg.WF := by
  unfold Registry.WF
  infer_instance

end App

namespace Courier

/-- `courier.Neighborhood`: a city neighborhood. -/
structure Neighborhood where
  neighborhood_id : String
  name : String
deriving DecidableEq, Repr

/-- `courier.City`: a city available for pickup and delivery. -/
structure City where
  city_id : String
  name : String
  neighborhoods : List Neighborhood := []
deriving DecidableEq, Repr

/-- msgspec decoding of a `Neighborhood` (field names `barrio`,
`descripcion`). -/
def decodeNeighborhood (j : JSON) : Option Neighborhood := do
  let nid ← (j.field "barrio").bind JSON.asStr
  let nm ← (j.field "descripcion").bind JSON.asStr
  pure ⟨nid, nm⟩

/-- msgspec decoding of a `City` (field names `ciudad`, `descripcion`,
`barrios`; the neighborhood list defaults to empty when absent). -/
def decodeCity (j : JSON) : Option City := do
  let cid ← (j.field "ciudad").bind JSON.asStr
  let nm ← (j.field "descripcion").bind JSON.asStr
  let ns ←
    match j.field "barrios" with
    | none => some ([] : List Neighborhood)
    | some bj => bj.asList decodeNeighborhood
  pure ⟨cid, nm, ns⟩

/-- msgspec decoding of `list[City]`, the response type of
`courier.get_cities` (a concrete instance of the transport core's
caller-requested response shape). -/
def decodeCityList (j : JSON) : Option (List City) :=
  j.asList decodeCity

end Courier

namespace Http

/-- `aiohttp.ClientRequest.GET_METHODS`. -/
def GET_METHODS : List String := ["GET", "HEAD", "OPTIONS", "TRACE"]

/-- `aiohttp.ClientRequest.POST_METHODS`. -/
def POST_METHODS : List String := ["PATCH", "POST", "PUT"]

/-- `_http.create_token`: hex digest of the private credential
concatenated with the caller-supplied token seed.  `hashlib.sha1` is an
external primitive; the embedding takes the digest function as a
parameter and keeps the exact input string it is applied to. -/
def create_token (sha1hex : String → String) (token_data : String)
    (app : App.Application) : String :=
  sha1hex (app.private_token ++ token_data)

/-- The source's `JSONQuery` value type: a scalar in the sense of the
query-string annotation (`float | str`). -/
def isQueryScalar : JSON → Bool
  | .num _ => true
  | .str _ => true
  | _ => false

/-- The source's `JSONQuery` value type: `list[float | str] | float |
str`. -/
def isQueryValue : JSON → Bool
  | .arr xs => xs.all isQueryScalar
  | j => isQueryScalar j

/-- Whether a payload dict inhabits the source's `JSONQuery` type (every
value a scalar or list of scalars). -/
def isQueryShaped (payload : List (String × JSON)) : Bool :=
  payload.all (fun p => isQueryValue p.2)

/-- How the augmented payload is attached to the outgoing request: GET
methods pass it as `params`, POST methods JSON-encode it as the body with
an explicit UTF-8 content type. -/
inductive Encoding where
  | query : List (String × JSON) → Encoding
  | jsonBody : List (String × JSON) → Encoding

/-- The request handed to `app.session.request` by `send_request`. -/
structure RequestSpec where
  method : String
  path : String
  encoding : Encoding

/-- The error raised by the pre-network stage of `send_request`. -/
inductive PrepError where
  /-- ValueError on a method in neither aiohttp method class. -/
  | unsupportedMethod : String → PrepError
deriving DecidableEq, Repr

/-- The pre-network stage of `_http.send_request`: resolve credentials,
sign the seed, inject signature and public credential into the payload
dict (in-place mutation, embedded by returning the post-call payload as
the second component), then dispatch on the method class.  The mutation
happens before the dispatch, so the caller's dict is mutated even when
the method is unsupported. -/
def prepare_request (sha1hex : String → String)
    (method path token_data : String) (payload : List (String × JSON))
    (key_hashed_token : String := "token")
    (key_public_token : String := "public_key") (app : App.Application) :
    Except PrepError RequestSpec × List (String × JSON) :=
  let payload :=
    dictSet payload key_hashed_token
      (.str (create_token sha1hex token_data app))
  let payload := dictSet payload key_public_token (.str app.public_token)
  if GET_METHODS.contains method then
    (.ok ⟨method, path, .query payload⟩, payload)
  else if POST_METHODS.contains method then
    (.ok ⟨method, path, .jsonBody payload⟩, payload)
  else
    (.error (.unsupportedMethod method), payload)

/-- `_http.Response`: the generic envelope.  The `resultado` field is
declared `T | str` with default `""`, so its decoded value is either a
payload of the requested shape or the raw string. -/
structure Response (T : Type) where
  success : Bool
  payload : T ⊕ String
deriving DecidableEq

/-- What the remote service answered: the HTTP status and the response
body.  The body is kept as a parsed JSON value; a body that is not even
parseable JSON is represented by any value the envelope decoder rejects
(both cases raise the same `msgspec.DecodeError` in the source). -/
structure HttpResponse where
  status : Nat
  body : JSON

/-- msgspec decoding of the `resultado` union `T | str`: a JSON string
decodes into the `str` arm, anything else must decode as the requested
shape. -/
def decodePayloadUnion (decodeT : JSON → Option T) :
    JSON → Option (T ⊕ String)
  | .str s => some (.inr s)
  | j => (decodeT j).map Sum.inl

/-- `msgspec.json.Decoder(Response[response_type], strict=False)` applied
to the response body: an object with a required boolean `respuesta` and an
optional `resultado` defaulting to the empty string.  Unknown fields are
ignored, as msgspec does. -/
def decodeResponseEnvelope (decodeT : JSON → Option T) (body : JSON) :
    Option (Response T) :=
  match body.field "respuesta" with
  | none => none
  | some sj =>
    match sj.asBool with
    | none => none
    | some success =>
      match body.field "resultado" with
      | none => some ⟨success, .inr ""⟩
      | some pj => (decodePayloadUnion decodeT pj).map (⟨success, ·⟩)

/-- The errors the response stage of `send_request` can raise. -/
inductive CallError (T : Type) where
  /-- `response.raise_for_status()`: aiohttp raises
  `ClientResponseError` exactly when the status is 400 or above (the
  spec's TransportError). -/
  | transport : Nat → CallError T
  /-- The re-raised `msgspec.DecodeError` (the spec's ProtocolError). -/
  | protocol : CallError T
  /-- The error built by `_errors.parse_error` (the spec's
  RemoteRejectionError). -/
  | remoteRejection : T ⊕ String → CallError T
deriving DecidableEq

/-- Modelled from the spec: `_errors.parse_error` lives in
`pagopar/_errors.py`, which is referenced by the sources but absent from
them; per the spec it builds a classified RemoteRejectionError from the
remote error payload, always preserving the raw message.  The embedding
keeps the whole payload it is given (the source passes `model.payload`
through a no-op `cast`). -/
def parse_error (payload : T ⊕ String) : CallError T :=
  .remoteRejection payload

/-- The response stage of `_http.send_request`: decode the envelope; on
decode failure consult `raise_for_status` (status 400 or above raises the
transport error) and otherwise re-raise the decode failure; on a decoded
envelope with a false success flag raise `parse_error` of the payload;
otherwise return the payload.  The source annotates the return value as
`T`, but the `cast` is a runtime no-op, so the value actually returned is
the decoded `T | str` union. -/
def processResponse (decodeT : JSON → Option T) (resp : HttpResponse) :
    Except (CallError T) (T ⊕ String) :=
  match decodeResponseEnvelope decodeT resp.body with
  | none =>
    if 400 ≤ resp.status then .error (.transport resp.status)
    else .error .protocol
  | some model =>
    if !model.success then .error (parse_error model.payload)
    else .ok model.payload

end Http

namespace Sync

/-- `sync.LogType`: type of notification sent by the remote service. -/
inductive LogType where
  | SOLD_ORDER
  | CANCELLED_ORDER
  | MODIFIED_PRODUCT
  | CREATED_PRODUCT
deriving DecidableEq, Repr

/-- Lookup of an integer among the `LogType` member values (1 to 4). -/
def LogType.ofInt (n : Int) : Option LogType :=
  if n = 1 then some .SOLD_ORDER
  else if n = 2 then some .CANCELLED_ORDER
  else if n = 3 then some .MODIFIED_PRODUCT
  else if n = 4 then some .CREATED_PRODUCT
  else none

/-- msgspec decoding of a `LogType` field: an integer token is looked up
among the member values; any other token goes through the enum's
`_missing_` hook, which retries after `int(value)` (so numeric strings
are accepted) and yields no member otherwise. -/
def LogType.ofJSON : JSON → Option LogType
  | .num n => LogType.ofInt n
  | .str s => s.toInt?.bind LogType.ofInt
  | _ => none

/-- Membership in the `product_logs` set of `parse_syncronization`
(product-creation and product-modification events). -/
def LogType.isProductLog : LogType → Bool
  | .CREATED_PRODUCT => true
  | .MODIFIED_PRODUCT => true
  | _ => false

/-- `sync.LogBase`: only the discriminant field. -/
structure LogBase where
  log_type : LogType
deriving DecidableEq, Repr

/-- `sync.User`: owner user of a commerce. -/
structure User where
  name : String
  lastname : String
  email : String
  phone : String
deriving DecidableEq, Repr

/-- `sync.Category`: a product category. -/
structure Category where
  category_id : Int
  name : String
  needs_dimentions : Bool
  physic_product : Bool
  commerce_id : Int
deriving DecidableEq, Repr

/-- `sync.AddressInfo`: pickup address and availability information.
Time-of-day fields are kept as the raw strings msgspec parses. -/
structure AddressInfo where
  address : String
  coordinates : String
  note : String
  city_id : Int
  city_name : String
  pickup_address_pagopar : String
  pickup_note : String
  pickup_schedule_start : String
  pickup_schedule_end : String
deriving DecidableEq, Repr

/-- `sync.MOBISchedule`: a pickup schedule for the MOBI courier. -/
structure MOBISchedule where
  days : List String
  start : String
  fin : String
deriving DecidableEq, Repr

/-- `sync.MOBIShipping`: MOBI shipping configuration of a product. -/
structure MOBIShipping where
  enabled : Bool
  title : String
  schedules : List MOBISchedule
  user_id : Int
deriving DecidableEq, Repr

/-- `sync.CityShipping`: shipping configuration for one destination
city. -/
structure CityShipping where
  city_id : Int
  name : String
  cost : Int
  delivery_time : Int
deriving DecidableEq, Repr

/-- `sync.OwnShipping`: commerce-managed shipping configuration. -/
structure OwnShipping where
  zone_name : String
  zone_id : Int
  cities : List CityShipping
deriving DecidableEq, Repr

/-- `sync.Product`: the complete product representation (the payload of
the richer, full-product log shape). -/
structure Product where
  weight : Int
  plength : Int
  width : Int
  height : Int
  price : Int
  enabled : Bool
  images : List String
  name : String
  description : String
  stock : Int
  aex_enabled : Bool
  local_pickup_enabled : Bool
  local_pickup_note : Option String
  linked : Bool
  user : User
  category : Category
  address_info : AddressInfo
  mobi_shipping : MOBIShipping
  own_shipping : List OwnShipping
deriving DecidableEq, Repr

/-- `sync.ProductLog`: synchronization log with full product data. -/
structure ProductLog extends LogBase where
  commerce_public_token : String
  log_id : String
  log_date : String
  quantity_sold : Int
  product_id : String
  product : Product
deriving DecidableEq, Repr

/-- `sync.Inventory`: inventory-only product data. -/
structure Inventory where
  stock : Int
deriving DecidableEq, Repr

/-- `sync.InventoryLog`: synchronization log with inventory-only data. -/
structure InventoryLog extends LogBase where
  commerce_public_token : String
  log_id : String
  log_date : String
  quantity_sold : Int
  product_id : String
  product : Inventory
  images : String
  commerce_id : String
  parent_commerce_id : Option String
deriving DecidableEq, Repr

/-- `sync.SyncRequest`: the generic synchronization request wrapper. -/
structure SyncRequest (α : Type) where
  public_token : String
  hashed_token : String
  data : List α
deriving DecidableEq, Repr

/-- msgspec decoding of `sync.User` (fields `nombre`, `apellido`,
`email`, `celular`). -/
def decodeUser (j : JSON) : Option User := do
  let nm ← (j.field "nombre").bind JSON.asStr
  let ln ← (j.field "apellido").bind JSON.asStr
  let em ← (j.field "email").bind JSON.asStr
  let ph ← (j.field "celular").bind JSON.asStr
  pure ⟨nm, ln, em, ph⟩

/-- msgspec decoding of `sync.Category`. -/
def decodeCategory (j : JSON) : Option Category := do
  let cid ← (j.field "categoria").bind JSON.asInt
  let nm ← (j.field "descripcion").bind JSON.asStr
  let nd ← (j.field "medidas").bind JSON.asBool
  let pp ← (j.field "producto_fisico").bind JSON.asBool
  let co ← (j.field "comercio").bind JSON.asInt
  pure ⟨cid, nm, nd, pp, co⟩

/-- msgspec decoding of `sync.AddressInfo`. -/
def decodeAddressInfo (j : JSON) : Option AddressInfo := do
  let ad ← (j.field "direccion").bind JSON.asStr
  let co ← (j.field "latitud_longitud").bind JSON.asStr
  let no ← (j.field "observacion").bind JSON.asStr
  let ci ← (j.field "ciudad").bind JSON.asInt
  let cn ← (j.field "ciudad_descripcion").bind JSON.asStr
  let pa ← (j.field "direccion_retiro").bind JSON.asStr
  let pn ← (j.field "comentario_pickup").bind JSON.asStr
  let hs ← (j.field "hora_inicio").bind JSON.asStr
  let he ← (j.field "hora_fin").bind JSON.asStr
  pure ⟨ad, co, no, ci, cn, pa, pn, hs, he⟩

/-- The literal day values `"1"` to `"5"` accepted for
`MOBISchedule.days`. -/
def isWeekdayLiteral (s : String) : Bool :=
  ["1", "2", "3", "4", "5"].contains s

/-- msgspec decoding of `sync.MOBISchedule` (fields `dias`,
`pickup_inicio`, `pickup_fin`). -/
def decodeMOBISchedule (j : JSON) : Option MOBISchedule := do
  let ds ← (j.field "dias").bind
    (JSON.asList fun d =>
      (d.asStr).bind fun s => if isWeekdayLiteral s then some s else none)
  let st ← (j.field "pickup_inicio").bind JSON.asStr
  let en ← (j.field "pickup_fin").bind JSON.asStr
  pure ⟨ds, st, en⟩

/-- msgspec decoding of `sync.MOBIShipping`. -/
def decodeMOBIShipping (j : JSON) : Option MOBIShipping := do
  let en ← (j.field "activo").bind JSON.asBool
  let ti ← (j.field "titulo").bind JSON.asStr
  let sc ← (j.field "horarios").bind (JSON.asList decodeMOBISchedule)
  let ui ← (j.field "mobi_usuario").bind JSON.asInt
  pure ⟨en, ti, sc, ui⟩

/-- msgspec decoding of `sync.CityShipping`. -/
def decodeCityShipping (j : JSON) : Option CityShipping := do
  let ci ← (j.field "ciudad").bind JSON.asInt
  let nm ← (j.field "descripcion").bind JSON.asStr
  let co ← (j.field "costo").bind JSON.asInt
  let dt ← (j.field "horas_entrega").bind JSON.asInt
  pure ⟨ci, nm, co, dt⟩

/-- msgspec decoding of `sync.OwnShipping`. -/
def decodeOwnShipping (j : JSON) : Option OwnShipping := do
  let zn ← (j.field "descripcion").bind JSON.asStr
  let zi ← (j.field "zona_envio").bind JSON.asInt
  let cs ← (j.field "ciudad").bind (JSON.asList decodeCityShipping)
  pure ⟨zn, zi, cs⟩

/-- The dimension, price, activity and image fields of `sync.Product`
(first third of the shape; split out of `decodeProduct` only to keep each
definition small). -/
def decodeProductDims (j : JSON) :
    Option (Int × Int × Int × Int × Int × Bool × List String) := do
  let we ← (j.field "peso").bind JSON.asInt
  let le ← (j.field "largo").bind JSON.asInt
  let wi ← (j.field "ancho").bind JSON.asInt
  let he ← (j.field "alto").bind JSON.asInt
  let pr ← (j.field "monto").bind JSON.asInt
  let en ← (j.field "activo").bind JSON.asBool
  let im ← (j.field "imagen").bind (JSON.asList JSON.asStr)
  pure (we, le, wi, he, pr, en, im)

/-- The text, stock and flag fields of `sync.Product` (second third of
the shape). -/
def decodeProductFlags (j : JSON) :
    Option (String × String × Int × Bool × Bool × Option String × Bool) := do
  let nm ← (j.field "titulo").bind JSON.asStr
  let de ← (j.field "descripcion").bind JSON.asStr
  let st ← (j.field "cantidad").bind JSON.asInt
  let ae ← (j.field "envio_aex").bind JSON.asBool
  let lp ← (j.field "retiro_local").bind JSON.asBool
  let ln ← (j.field "observacion_retiro").bind (JSON.asOpt JSON.asStr)
  let li ← (j.field "vinculado").bind JSON.asBool
  pure (nm, de, st, ae, lp, ln, li)

/-- The nested record fields of `sync.Product` (last third of the
shape). -/
def decodeProductParts (j : JSON) :
    Option (User × Category × AddressInfo × MOBIShipping ×
      List OwnShipping) := do
  let us ← (j.field "usuario").bind decodeUser
  let ca ← (j.field "categoria").bind decodeCategory
  let ai ← (j.field "direccion").bind decodeAddressInfo
  let mo ← (j.field "envio_mobi").bind decodeMOBIShipping
  let ow ← (j.field "envio_propio").bind (JSON.asList decodeOwnShipping)
  pure (us, ca, ai, mo, ow)

/-- msgspec decoding of `sync.Product` (the full-product shape). -/
def decodeProduct (j : JSON) : Option Product := do
  let (we, le, wi, he, pr, en, im) ← decodeProductDims j
  let (nm, de, st, ae, lp, ln, li) ← decodeProductFlags j
  let (us, ca, ai, mo, ow) ← decodeProductParts j
  pure { weight := we, plength := le, width := wi, height := he,
         price := pr, enabled := en, images := im, name := nm,
         description := de, stock := st, aex_enabled := ae,
         local_pickup_enabled := lp, local_pickup_note := ln,
         linked := li, user := us, category := ca, address_info := ai,
         mobi_shipping := mo, own_shipping := ow }

/-- msgspec decoding of `sync.LogBase`: only the discriminant field
`tipo_aviso` is read. -/
def decodeLogBase (j : JSON) : Option LogBase := do
  let t ← (j.field "tipo_aviso").bind LogType.ofJSON
  pure ⟨t⟩

/-- msgspec decoding of `sync.ProductLog` (the full-product log shape).
Datetime fields are kept as the raw strings msgspec parses. -/
def decodeProductLog (j : JSON) : Option ProductLog := do
  let t ← (j.field "tipo_aviso").bind LogType.ofJSON
  let tk ← (j.field "token_publico").bind JSON.asStr
  let li ← (j.field "logs").bind JSON.asStr
  let ld ← (j.field "fecha").bind JSON.asStr
  let qs ← (j.field "cantidad_venta").bind JSON.asInt
  let pi ← (j.field "link_venta").bind JSON.asStr
  let pd ← (j.field "datos").bind decodeProduct
  pure ⟨⟨t⟩, tk, li, ld, qs, pi, pd⟩

/-- msgspec decoding of `sync.Inventory`. -/
def decodeInventory (j : JSON) : Option Inventory := do
  let st ← (j.field "cantidad").bind JSON.asInt
  pure ⟨st⟩

/-- msgspec decoding of `sync.InventoryLog` (the inventory-only log
shape). -/
def decodeInventoryLog (j : JSON) : Option InventoryLog := do
  let t ← (j.field "tipo_aviso").bind LogType.ofJSON
  let tk ← (j.field "token_publico").bind JSON.asStr
  let li ← (j.field "logs").bind JSON.asStr
  let ld ← (j.field "fecha").bind JSON.asStr
  let qs ← (j.field "cantidad_venta").bind JSON.asInt
  let pi ← (j.field "link_venta").bind JSON.asStr
  let pd ← (j.field "datos").bind decodeInventory
  let im ← (j.field "imagenes").bind JSON.asStr
  let ci ← (j.field "comercio").bind JSON.asStr
  let pc ← (j.field "comercio_padre_heredado").bind (JSON.asOpt JSON.asStr)
  pure ⟨⟨t⟩, tk, li, ld, qs, pi, pd, im, ci, pc⟩

/-- msgspec decoding of `SyncRequest[msgspec.Raw]` (fields
`token_publico`, `token`, `datos`; the entries stay raw). -/
def decodeSyncRequestRaw (j : JSON) : Option (SyncRequest JSON) := do
  let tk ← (j.field "token_publico").bind JSON.asStr
  let ht ← (j.field "token").bind JSON.asStr
  let ds ←
    match j.field "datos" with
    | some (.arr xs) => some xs
    | _ => none
  pure ⟨tk, ht, ds⟩

/-- The decode failures `parse_syncronization` can raise (all
`msgspec.DecodeError`s in the source, told apart by the decode they come
from; the spec's taxonomy names the discriminant failure
UnknownLogTypeError). -/
inductive SyncError where
  /-- The outer `SyncRequest[Raw]` decode failed. -/
  | envelope
  /-- The `LogBase` decode of an entry failed: the discriminant is
  absent or not a recognized `LogType` value. -/
  | unknownLogType
  /-- The full decode of an entry against its selected shape failed. -/
  | body
deriving DecidableEq, Repr

/-- The loop body of `parse_syncronization`: decode the discriminant of
one raw entry, then decode the same entry against the full-product shape
for creation/modification events and against the inventory-only shape for
every other recognized event. -/
def parse_log_entry (raw : JSON) :
    Except SyncError (ProductLog ⊕ InventoryLog) :=
  match decodeLogBase raw with
  | none => .error .unknownLogType
  | some base =>
    if base.log_type.isProductLog then
      match decodeProductLog raw with
      | some p => .ok (.inl p)
      | none => .error .body
    else
      match decodeInventoryLog raw with
      | some q => .ok (.inr q)
      | none => .error .body

/-- The entry loop of `parse_syncronization`: every raw entry goes
through the discriminated dispatch, the first failure propagating out. -/
def parse_log_entries :
    List JSON → Except SyncError (List (ProductLog ⊕ InventoryLog))
  | [] => .ok []
  | raw :: rest =>
    match parse_log_entry raw with
    | .error e => .error e
    | .ok entry =>
      match parse_log_entries rest with
      | .error e => .error e
      | .ok entries => .ok (entry :: entries)

/-- `sync.parse_syncronization`: decode the outer wrapper with the
entries left raw, then decode every entry through the discriminated
dispatch, rebuilding the wrapper around the parsed entries. -/
def parse_syncronization (msg : JSON) :
    Except SyncError (SyncRequest (ProductLog ⊕ InventoryLog)) :=
  match decodeSyncRequestRaw msg with
  | none => .error .envelope
  | some req =>
    match parse_log_entries req.data with
    | .error e => .error e
    | .ok parsed => .ok ⟨req.public_token, req.hashed_token, parsed⟩

end Sync

namespace Samples

/-- A pickup configuration for concrete evaluations. -/
def pickup : Courier.PickupMethod := ⟨"store front", 0, 0⟩

/-- The AEX options of the spec's worked example (ids 10-0 and 10-1). -/
def aexOptions : List Courier.CourierOption :=
  [⟨"10-0", "BUMER", 15000, "24"⟩, ⟨"10-1", "Standard", 20000, "48"⟩]

/-- An AEX sub-configuration offering `aexOptions`, nothing selected. -/
def aex : Courier.AEXMethod := ⟨none, aexOptions, none, 0⟩

/-- A MOBI sub-configuration with a single option, nothing selected. -/
def mobi : Courier.MOBIMethod := ⟨none, [⟨"m-1", "Mobi std", 9000, "6"⟩], none, 0⟩

/-- A fetched option set carrying pickup, AEX and MOBI configurations. -/
def shippingOptions : Courier.ShippingOptions :=
  { pickup_method := some pickup
    delivery_method := none
    mobi_method := some mobi
    aex_method := some aex }

/-- A physical item as returned by freight calculation. -/
def item : Courier.PhysicalItem :=
  { quantity := 1
    description := "a physical product"
    name := "product"
    product_id := 7
    total_price := 150000
    seller_public_key := "pk"
    shipping_options := .base shippingOptions }

/-- An item whose option set has no courier sub-configuration at all. -/
def bareItem : Courier.PhysicalItem :=
  { item with shipping_options := .base (
    { pickup_method := some pickup
      delivery_method := none
      mobi_method := none
      aex_method := none }) }

/-- The item after a successful AEX selection of option 10-1 (used to
evaluate repeated selection on concrete data). -/
def selectedItem : Courier.PhysicalItem :=
  (Courier.select_shipping_method item .AEX (some "10-1")).2

/-- A raw product-creation log entry (discriminant 4). -/
def productLogJSON : JSON :=
  .obj [("tipo_aviso", .num 4), ("token_publico", .str "tp"),
    ("logs", .str "l1"), ("fecha", .str "2024-01-01 00:00:00"),
    ("cantidad_venta", .num 0), ("link_venta", .str "lv"),
    ("datos", .obj [("peso", .num 1), ("largo", .num 2),
      ("ancho", .num 3), ("alto", .num 4), ("monto", .num 1000),
      ("activo", .bool true), ("imagen", .arr [.str "u"]),
      ("titulo", .str "n"), ("descripcion", .str "de"),
      ("cantidad", .num 7), ("envio_aex", .bool true),
      ("retiro_local", .bool false), ("observacion_retiro", .null),
      ("vinculado", .bool true),
      ("usuario", .obj [("nombre", .str "Ana"),
        ("apellido", .str "Gomez"), ("email", .str "a@b"),
        ("celular", .str "1")]),
      ("categoria", .obj [("categoria", .num 9),
        ("descripcion", .str "c"), ("medidas", .bool false),
        ("producto_fisico", .bool true), ("comercio", .num 5)]),
      ("direccion", .obj [("direccion", .str "d"),
        ("latitud_longitud", .str "0,0"), ("observacion", .str "o"),
        ("ciudad", .num 1), ("ciudad_descripcion", .str "Asu"),
        ("direccion_retiro", .str "r"), ("comentario_pickup", .str "pk"),
        ("hora_inicio", .str "08:00"), ("hora_fin", .str "17:00")]),
      ("envio_mobi", .obj [("activo", .bool true), ("titulo", .str "t"),
        ("horarios", .arr []), ("mobi_usuario", .num 3)]),
      ("envio_propio", .arr [])])]

/-- The decoded form of `productLogJSON`. -/
def productLogVal : Sync.ProductLog :=
  ⟨⟨.CREATED_PRODUCT⟩, "tp", "l1", "2024-01-01 00:00:00", 0, "lv",
    ⟨1, 2, 3, 4, 1000, true, ["u"], "n", "de", 7, true, false, none,
      true, ⟨"Ana", "Gomez", "a@b", "1"⟩, ⟨9, "c", false, true, 5⟩,
      ⟨"d", "0,0", "o", 1, "Asu", "r", "pk", "08:00", "17:00"⟩,
      ⟨true, "t", [], 3⟩, []⟩⟩

/-- A raw sold-order log entry (discriminant 1, inventory-only data). -/
def inventoryLogJSON : JSON :=
  .obj [("tipo_aviso", .num 1), ("token_publico", .str "tp"),
    ("logs", .str "l2"), ("fecha", .str "2024-01-02 00:00:00"),
    ("cantidad_venta", .num 2), ("link_venta", .str "lv2"),
    ("datos", .obj [("cantidad", .num 5)]), ("imagenes", .str ""),
    ("comercio", .str "c1"), ("comercio_padre_heredado", .null)]

/-- The decoded form of `inventoryLogJSON`. -/
def inventoryLogVal : Sync.InventoryLog :=
  ⟨⟨.SOLD_ORDER⟩, "tp", "l2", "2024-01-02 00:00:00", 2, "lv2", ⟨5⟩,
    "", "c1", none⟩

/-- A raw log entry with an unrecognized discriminant. -/
def unknownLogJSON : JSON := .obj [("tipo_aviso", .num 9)]

/-- A full synchronization message wrapping the inventory entry. -/
def syncMsgJSON : JSON :=
  .obj [("token_publico", .str "tp"), ("token", .str "hk"),
    ("datos", .arr [inventoryLogJSON])]

end Samples

/-- C2: for every item whose AEX (resp. MOBI) sub-configuration is present
and offers an option with the given id, `select_shipping_method` with
method AEX (resp. MOBI) succeeds with a selection record whose committed
shipping cost is that option's cost, writes the chosen id into that
sub-configuration's selected-id field, and carries the original pickup,
own-fleet, AEX and MOBI sub-configurations over into the new record. -/
theorem select_shipping_method_commits_option
    (item : Courier.PhysicalItem) (optionId : String) :
    (∀ obj o,
      item.shipping_options.toOptions.aex_method = some obj →
      Courier.findCourierOption obj.options (some optionId) = some o →
      Courier.select_shipping_method item .AEX (some optionId) =
        (.ok (), { item with shipping_options := .selection (
          { toShippingOptions :=
              { item.shipping_options.toOptions with
                aex_method := some { obj with option_id := some optionId } }
            commerce_commission := 0
            shipping_cost := o.cost
            selected_method := .AEX }) })) ∧
    (∀ obj o,
      item.shipping_options.toOptions.mobi_method = some obj →
      Courier.findCourierOption obj.options (some optionId) = some o →
      Courier.select_shipping_method item .MOBI (some optionId) =
        (.ok (), { item with shipping_options := .selection (
          { toShippingOptions :=
              { item.shipping_options.toOptions with
                mobi_method := some { obj with option_id := some optionId } }
            commerce_commission := 0
            shipping_cost := o.cost
            selected_method := .MOBI }) })) := by
  constructor
  · intro obj o hobj hfind
    simp only [Courier.select_shipping_method, hobj, hfind]
  · intro obj o hobj hfind
    simp only [Courier.select_shipping_method, hobj, hfind]

/-- Witness for C2 at the spec's worked example: method AEX with option
id 10-1 commits cost 20000 and writes the id back; the MOBI half at the
sample's single MOBI option. -/
theorem select_shipping_method_commits_option_witness :
    Courier.select_shipping_method Samples.item .AEX (some "10-1") =
      (.ok (), { Samples.item with shipping_options := .selection (
        { toShippingOptions :=
            { Samples.shippingOptions with
              aex_method := some { Samples.aex with option_id := some "10-1" } }
          commerce_commission := 0
          shipping_cost := 20000
          selected_method := .AEX }) }) ∧
    Courier.select_shipping_method Samples.item .MOBI (some "m-1") =
      (.ok (), { Samples.item with shipping_options := .selection (
        { toShippingOptions :=
            { Samples.shippingOptions with
              mobi_method := some { Samples.mobi with option_id := some "m-1" } }
          commerce_commission := 0
          shipping_cost := 9000
          selected_method := .MOBI }) }) :=
  ⟨(select_shipping_method_commits_option Samples.item "10-1").1
      Samples.aex ⟨"10-1", "Standard", 20000, "48"⟩ rfl rfl,
    (select_shipping_method_commits_option Samples.item "m-1").2
      Samples.mobi ⟨"m-1", "Mobi std", 9000, "6"⟩ rfl rfl⟩

/-- C3: `select_shipping_method` with method AEX or MOBI raises the
missing-configuration error when the corresponding sub-configuration is
absent and the invalid-option error when no offered option carries the
given id; in both failure cases the item (and with it its shipping-option
set) is returned unchanged. -/
theorem select_shipping_method_failure_no_partial_update
    (item : Courier.PhysicalItem) (optionId : Option String) :
    (item.shipping_options.toOptions.aex_method = none →
      Courier.select_shipping_method item .AEX optionId =
        (.error (.missingMethodConfig "aex"), item)) ∧
    (∀ obj, item.shipping_options.toOptions.aex_method = some obj →
      Courier.findCourierOption obj.options optionId = none →
      Courier.select_shipping_method item .AEX optionId =
        (.error .invalidOption, item)) ∧
    (item.shipping_options.toOptions.mobi_method = none →
      Courier.select_shipping_method item .MOBI optionId =
        (.error (.missingMethodConfig "mobi"), item)) ∧
    (∀ obj, item.shipping_options.toOptions.mobi_method = some obj →
      Courier.findCourierOption obj.options optionId = none →
      Courier.select_shipping_method item .MOBI optionId =
        (.error .invalidOption, item)) := by
  refine ⟨fun hobj => ?_, fun obj hobj hfind => ?_,
    fun hobj => ?_, fun obj hobj hfind => ?_⟩
  · simp only [Courier.select_shipping_method, hobj]
  · simp only [Courier.select_shipping_method, hobj, hfind]
  · simp only [Courier.select_shipping_method, hobj]
  · simp only [Courier.select_shipping_method, hobj, hfind]

/-- Witness for C3: the bare item has no AEX and no MOBI configuration;
the configured sample offers no option with id 99-9 on either courier. -/
theorem select_shipping_method_failure_witness :
    Courier.select_shipping_method Samples.bareItem .AEX (some "10-1") =
      (.error (.missingMethodConfig "aex"), Samples.bareItem) ∧
    Courier.select_shipping_method Samples.item .AEX (some "99-9") =
      (.error .invalidOption, Samples.item) ∧
    Courier.select_shipping_method Samples.bareItem .MOBI (some "m-1") =
      (.error (.missingMethodConfig "mobi"), Samples.bareItem) ∧
    Courier.select_shipping_method Samples.item .MOBI (some "99-9") =
      (.error .invalidOption, Samples.item) :=
  ⟨(select_shipping_method_failure_no_partial_update Samples.bareItem
      (some "10-1")).1 rfl,
    (select_shipping_method_failure_no_partial_update Samples.item
      (some "99-9")).2.1 Samples.aex rfl rfl,
    (select_shipping_method_failure_no_partial_update Samples.bareItem
      (some "m-1")).2.2.1 rfl,
    (select_shipping_method_failure_no_partial_update Samples.item
      (some "99-9")).2.2.2 Samples.mobi rfl rfl⟩

/-- C9: `select_shipping_method` is idempotent: whenever a call succeeds,
repeating it with the same arguments on the resulting item succeeds again
and leaves the item's shipping-selection record equal field for field. -/
theorem select_shipping_method_idempotent
    (item : Courier.PhysicalItem) (method : Courier.ShippingMethod)
    (optionId : Option String) (item1 : Courier.PhysicalItem)
    (h : Courier.select_shipping_method item method optionId =
      (.ok (), item1)) :
    Courier.select_shipping_method item1 method optionId =
      (.ok (), item1) := by
  cases method with
  | AEX =>
    cases hobj : item.shipping_options.toOptions.aex_method with
    | none => simp [Courier.select_shipping_method, hobj] at h
    | some obj =>
      cases hfind : Courier.findCourierOption obj.options optionId with
      | none => simp [Courier.select_shipping_method, hobj, hfind] at h
      | some o =>
        simp only [Courier.select_shipping_method, hobj, hfind,
          Prod.mk.injEq, Except.ok.injEq, true_and] at h
        subst h
        simp only [Courier.select_shipping_method,
          Courier.ItemShippingOptions.toOptions, hfind]
  | MOBI =>
    cases hobj : item.shipping_options.toOptions.mobi_method with
    | none => simp [Courier.select_shipping_method, hobj] at h
    | some obj =>
      cases hfind : Courier.findCourierOption obj.options optionId with
      | none => simp [Courier.select_shipping_method, hobj, hfind] at h
      | some o =>
        simp only [Courier.select_shipping_method, hobj, hfind,
          Prod.mk.injEq, Except.ok.injEq, true_and] at h
        subst h
        simp only [Courier.select_shipping_method,
          Courier.ItemShippingOptions.toOptions, hfind]
  | OWN_DELIVERY =>
    simp only [Courier.select_shipping_method, Prod.mk.injEq,
      Except.ok.injEq, true_and] at h
    subst h
    simp only [Courier.select_shipping_method,
      Courier.ItemShippingOptions.toOptions]
  | PICKUP =>
    simp only [Courier.select_shipping_method, Prod.mk.injEq,
      Except.ok.injEq, true_and] at h
    subst h
    simp only [Courier.select_shipping_method,
      Courier.ItemShippingOptions.toOptions]

/-- Witness for C9: repeating the successful AEX selection of option
10-1 on the already-updated sample item reproduces the same record. -/
theorem select_shipping_method_idempotent_witness :
    Courier.select_shipping_method Samples.selectedItem .AEX
      (some "10-1") = (.ok (), Samples.selectedItem) :=
  select_shipping_method_idempotent Samples.item .AEX (some "10-1")
    Samples.selectedItem rfl

/-- After erasing the entry of a name from a registry list with distinct
names, no entry of that name remains. -/
theorem find?_eraseP_self_eq_none
    (l : List (String × App.Application)) (name : String)
    (hnd : (l.map Prod.fst).Nodup) :
    (l.eraseP (fun p => p.1 = name)).find? (fun p => p.1 = name) = none := by
  induction l with
  | nil => rfl
  | cons hd tl ih =>
    rw [List.map_cons, List.nodup_cons] at hnd
    obtain ⟨hhd, htl⟩ := hnd
    by_cases h : hd.1 = name
    · rw [List.eraseP_cons_of_pos (by simpa using h)]
      rw [List.find?_eq_none]
      intro x hx
      simp only [decide_eq_true_eq]
      intro hx1
      exact hhd (h ▸ hx1 ▸ List.mem_map_of_mem Prod.fst hx)
    · rw [List.eraseP_cons_of_neg (by simpa using h),
        List.find?_cons_of_neg _ (by simpa using h)]
      exact ih htl

/-- C6 counterexample: with both environment variables set, initializing
an application under a non-default name with absent credentials succeeds
(the environment fallback is not restricted to the default name). -/
theorem initialize_app_nondefault_env_fallback_counterexample :
    (App.initialize_app ⟨some "priv", some "pub"⟩ none none none "other"
        App.Registry.empty).1 = .ok ⟨0, "other", "priv", "pub", none⟩ ∧
    "other" ≠ App.DEFAULT_APP_NAME :=
  ⟨rfl, by decide⟩

/-- C6 (amended): initialization fails with the missing-credentials error
exactly when the credentials are still empty or absent after the
environment fallback, which is attempted for every application name
whenever either explicit credential is absent. -/
theorem initialize_app_missing_credentials_iff
    (env : App.Env) (pt pub px : Option String) (name : String)
    (reg : App.Registry) :
    (App.initialize_app env pt pub px name reg).1 =
        .error .missingCredentials ↔
      (App.truthy (App.effectiveCredentials env pt pub).1 &&
        App.truthy (App.effectiveCredentials env pt pub).2) = false := by
  unfold App.initialize_app
  cases hc : App.truthy (App.effectiveCredentials env pt pub).1 &&
      App.truthy (App.effectiveCredentials env pt pub).2 with
  | false => simp [hc]
  | true =>
    simp only [hc, Bool.not_true, Bool.false_eq_true, if_false]
    cases ha : reg.apps.any (fun p => p.1 = name) <;> simp [ha]

/-- C7: registry lifecycle: re-initializing a registered name fails with
the already-initialized error and leaves the registry unchanged; closing
an unregistered name fails with the not-found error and leaves the
registry unchanged; after a successful close the name is no longer
gettable; re-initializing it with valid credentials succeeds, and the
application returned is distinct from the one registered before the
close. -/
theorem app_registry_lifecycle :
    (∀ (env : App.Env) (pt pub px : Option String) (name : String)
        (reg reg1 : App.Registry) (app1 : App.Application),
      App.initialize_app env pt pub px name reg = (.ok app1, reg1) →
      App.initialize_app env pt pub px name reg1 =
        (.error (.alreadyInitialized name), reg1)) ∧
    (∀ (name : String) (reg : App.Registry),
      reg.apps.find? (fun p => p.1 = name) = none →
      App.close_app name reg = (.error (.notFound name), reg)) ∧
    (∀ (name : String) (reg reg' : App.Registry), reg.WF →
      App.close_app name reg = (.ok (), reg') →
      App.get_app name reg' = .error (.notFound name)) ∧
    (∀ (env : App.Env) (pt pub px : Option String) (name : String)
        (reg reg' : App.Registry), reg.WF →
      App.close_app name reg = (.ok (), reg') →
      App.truthy (App.effectiveCredentials env pt pub).1 = true →
      App.truthy (App.effectiveCredentials env pt pub).2 = true →
      (App.initialize_app env pt pub px name reg').1 =
        .ok ⟨reg'.nextObjectId, name,
          (App.effectiveCredentials env pt pub).1.getD "",
          (App.effectiveCredentials env pt pub).2.getD "", px⟩) ∧
    (∀ (env : App.Env) (pt pub px : Option String) (name : String)
        (reg reg' reg2 : App.Registry) (app1 app2 : App.Application),
      reg.WF →
      App.get_app name reg = .ok app1 →
      App.close_app name reg = (.ok (), reg') →
      App.initialize_app env pt pub px name reg' = (.ok app2, reg2) →
      app2 ≠ app1) := by
  have hclose : ∀ (name : String) (reg reg' : App.Registry),
      App.close_app name reg = (.ok (), reg') →
      reg' = { reg with apps := reg.apps.eraseP (fun p => p.1 = name) } := by
    intro name reg reg' h
    unfold App.close_app at h
    cases hga : App.get_app name reg with
    | error e => rw [hga] at h; simp at h
    | ok a => rw [hga] at h; exact (Prod.ext_iff.mp h).2.symm
  have hinitInv : ∀ (env : App.Env) (pt pub px : Option String)
      (name : String) (reg reg1 : App.Registry) (app1 : App.Application),
      App.initialize_app env pt pub px name reg = (.ok app1, reg1) →
      (App.truthy (App.effectiveCredentials env pt pub).1 &&
        App.truthy (App.effectiveCredentials env pt pub).2) = true ∧
      reg.apps.any (fun p => p.1 = name) = false ∧
      app1 = ⟨reg.nextObjectId, name,
        (App.effectiveCredentials env pt pub).1.getD "",
        (App.effectiveCredentials env pt pub).2.getD "", px⟩ ∧
      reg1 = ⟨reg.apps ++ [(name, app1)], reg.nextObjectId + 1⟩ := by
    intro env pt pub px name reg reg1 app1 h
    unfold App.initialize_app at h
    cases hc : App.truthy (App.effectiveCredentials env pt pub).1 &&
        App.truthy (App.effectiveCredentials env pt pub).2 with
    | false => simp [hc] at h
    | true =>
      cases ha : reg.apps.any (fun p => p.1 = name) with
      | true => simp [hc, ha] at h
      | false =>
        simp only [hc, ha, Bool.not_true, Bool.false_eq_true, if_false,
          Prod.mk.injEq, Except.ok.injEq] at h
        exact ⟨rfl, rfl, h.1.symm, h.1 ▸ h.2.symm⟩
  refine ⟨?_, ?_, ?_, ?_, ?_⟩
  · intro env pt pub px name reg reg1 app1 h
    obtain ⟨hc, _, _, hreg1⟩ := hinitInv env pt pub px name reg reg1 app1 h
    unfold App.initialize_app
    have hany : reg1.apps.any (fun p => p.1 = name) = true := by
      rw [hreg1]
      simp
    simp [hc, hany]
  · intro name reg hfind
    unfold App.close_app App.get_app
    rw [hfind]
  · intro name reg reg' hwf h
    have hreg' := hclose name reg reg' h
    subst hreg'
    unfold App.get_app
    rw [find?_eraseP_self_eq_none reg.apps name hwf.1]
  · intro env pt pub px name reg reg' hwf h hc1 hc2
    have hreg' := hclose name reg reg' h
    have hany : reg'.apps.any (fun p => p.1 = name) = false := by
      rw [List.any_eq_false]
      intro p hp
      have hmem := List.find?_eq_none.mp
        (find?_eraseP_self_eq_none reg.apps name hwf.1) p (by
          rw [hreg'] at hp
          exact hp)
      simpa using hmem
    unfold App.initialize_app
    simp [hc1, hc2, hany]
  · intro env pt pub px name reg reg' reg2 app1 app2 hwf hget h hinit
    have hreg' := hclose name reg reg' h
    have hlt : app1.objectId < reg.nextObjectId := by
      unfold App.get_app at hget
      cases hf : reg.apps.find? (fun p => p.1 = name) with
      | none => rw [hf] at hget; simp at hget
      | some p =>
        rw [hf] at hget
        simp only [Except.ok.injEq] at hget
        exact hget ▸ hwf.2 p (List.mem_of_find?_eq_some hf)
    obtain ⟨_, _, happ2, _⟩ :=
      hinitInv env pt pub px name reg' reg2 app2 hinit
    intro heq
    rw [← heq, happ2, hreg'] at hlt
    simp at hlt

/-- Witness for C7 on a concrete run: initialize name n, initialize it
again (fails, registry unchanged), close an unknown name (fails), close n
and get it (fails), re-initialize n (succeeds) and compare the two
applications (distinct). -/
theorem app_registry_lifecycle_witness :
    App.initialize_app ⟨none, none⟩ (some "a") (some "b") none "n"
        ⟨[("n", ⟨0, "n", "a", "b", none⟩)], 1⟩ =
      (.error (.alreadyInitialized "n"),
        ⟨[("n", ⟨0, "n", "a", "b", none⟩)], 1⟩) ∧
    App.close_app "x" App.Registry.empty =
      (.error (.notFound "x"), App.Registry.empty) ∧
    App.get_app "n" ⟨[], 1⟩ = .error (.notFound "n") ∧
    (App.initialize_app ⟨none, none⟩ (some "a") (some "b") none "n"
        ⟨[], 1⟩).1 = .ok ⟨1, "n", "a", "b", none⟩ ∧
    (⟨1, "n", "a", "b", none⟩ : App.Application) ≠
      ⟨0, "n", "a", "b", none⟩ :=
  ⟨app_registry_lifecycle.1 ⟨none, none⟩ (some "a") (some "b") none "n"
      App.Registry.empty _ _ rfl,
    app_registry_lifecycle.2.1 "x" App.Registry.empty rfl,
    app_registry_lifecycle.2.2.1 "n"
      ⟨[("n", ⟨0, "n", "a", "b", none⟩)], 1⟩ ⟨[], 1⟩ (by decide) rfl,
    app_registry_lifecycle.2.2.2.1 ⟨none, none⟩ (some "a") (some "b")
      none "n" ⟨[("n", ⟨0, "n", "a", "b", none⟩)], 1⟩ ⟨[], 1⟩
      (by decide) rfl rfl rfl,
    app_registry_lifecycle.2.2.2.2 ⟨none, none⟩ (some "a") (some "b")
      none "n" ⟨[("n", ⟨0, "n", "a", "b", none⟩)], 1⟩ ⟨[], 1⟩
      ⟨[("n", ⟨1, "n", "a", "b", none⟩)], 2⟩ ⟨0, "n", "a", "b", none⟩
      ⟨1, "n", "a", "b", none⟩ (by decide) rfl rfl rfl⟩

/-- `find?` skips a prefix in which nothing matches. -/
theorem find?_append_of_none {α : Type} (p : α → Bool)
    (l1 l2 : List α) (h : l1.find? p = none) :
    (l1 ++ l2).find? p = l2.find? p := by
  induction l1 with
  | nil => rfl
  | cons hd tl ih =>
    rw [List.find?_cons] at h
    cases hp : p hd with
    | true => rw [hp] at h; exact absurd h (by simp)
    | false =>
      rw [hp] at h
      rw [List.cons_append, List.find?_cons, hp]
      exact ih h

/-- `find?` returns the match found in a prefix. -/
theorem find?_append_of_some {α : Type} (p : α → Bool)
    (l1 l2 : List α) (x : α) (h : l1.find? p = some x) :
    (l1 ++ l2).find? p = some x := by
  induction l1 with
  | nil => simp at h
  | cons hd tl ih =>
    rw [List.find?_cons] at h
    cases hp : p hd with
    | true =>
      rw [hp] at h
      rw [List.cons_append, List.find?_cons, hp]
      exact h
    | false =>
      rw [hp] at h
      rw [List.cons_append, List.find?_cons, hp]
      exact ih h

/-- In the overwrite branch of `dictSet`, looking up any other key is
unaffected by the replacement. -/
theorem find?_map_replace_ne (d : List (String × JSON)) (k : String)
    (v : JSON) (k' : String) (h : k' ≠ k) :
    (d.map (fun p => if p.1 = k then (k, v) else p)).find?
        (fun p => p.1 = k') =
      d.find? (fun p => p.1 = k') := by
  induction d with
  | nil => rfl
  | cons hd tl ih =>
    by_cases hhd : hd.1 = k
    · have hhead : ¬ (((k, v) : String × JSON).1 = k') :=
        fun hkk => h hkk.symm
      have horig : ¬ (hd.1 = k') := fun hk2 => h (hk2.symm.trans hhd)
      rw [List.map_cons, if_pos hhd,
        List.find?_cons_of_neg _ (by simpa using hhead),
        List.find?_cons_of_neg _ (by simpa using horig)]
      exact ih
    · rw [List.map_cons, if_neg hhd]
      by_cases hk' : hd.1 = k'
      · rw [List.find?_cons_of_pos _ (by simpa using hk'),
          List.find?_cons_of_pos _ (by simpa using hk')]
      · rw [List.find?_cons_of_neg _ (by simpa using hk'),
          List.find?_cons_of_neg _ (by simpa using hk')]
        exact ih

/-- In the overwrite branch of `dictSet`, looking up the overwritten key
yields the new value once the key is present at all. -/
theorem find?_map_replace_self (d : List (String × JSON)) (k : String)
    (v : JSON) (hany : d.any (fun p => p.1 = k) = true) :
    (d.map (fun p => if p.1 = k then (k, v) else p)).find?
        (fun p => p.1 = k) =
      some (k, v) := by
  induction d with
  | nil => simp at hany
  | cons hd tl ih =>
    by_cases hhd : hd.1 = k
    · rw [List.map_cons, if_pos hhd, List.find?_cons_of_pos _ (by simp)]
    · rw [List.map_cons, if_neg hhd,
        List.find?_cons_of_neg _ (by simpa using hhd)]
      refine ih ?_
      rw [List.any_cons] at hany
      simpa [hhd] using hany

/-- Python dict lookup after dict assignment: the assigned key maps to
the new value and every other key is untouched. -/
theorem dictGet_dictSet (d : List (String × JSON)) (k : String)
    (v : JSON) (k' : String) :
    dictGet (dictSet d k v) k' =
      if k' = k then some v else dictGet d k' := by
  unfold dictGet dictSet
  by_cases hany : d.any (fun p => p.1 = k) = true
  · rw [if_pos hany]
    by_cases hk : k' = k
    · subst hk
      rw [find?_map_replace_self d k' v hany, if_pos rfl]
      rfl
    · rw [find?_map_replace_ne d k v k' hk, if_neg hk]
  · rw [if_neg hany]
    have hnone : ∀ kx : String, d.find? (fun p => p.1 = kx) = none ∨
        (d.find? (fun p => p.1 = kx)).isSome := by
      intro kx
      cases d.find? (fun p => p.1 = kx) with
      | none => exact Or.inl rfl
      | some p => exact Or.inr rfl
    have hdk : d.find? (fun p => p.1 = k) = none := by
      rw [List.find?_eq_none]
      intro x hx hpx
      exact hany (List.any_eq_true.mpr ⟨x, hx, hpx⟩)
    by_cases hk : k' = k
    · subst hk
      rw [find?_append_of_none _ d _ hdk, if_pos rfl]
      simp [List.find?_cons]
    · rcases hnone k' with hcase | hcase
      · rw [find?_append_of_none _ d _ hcase, hcase, if_neg hk]
        have : ¬ (((k, v) : String × JSON).1 = k') :=
          fun hkk => hk hkk.symm
        rw [List.find?_cons_of_neg _ (by simpa using this)]
        rfl
      · obtain ⟨p, hp⟩ := Option.isSome_iff_exists.mp hcase
        rw [find?_append_of_some _ d _ p hp, hp, if_neg hk]

/-- C10: `send_request` mutates the caller's payload dict in place before
dispatching on the method: whatever the later outcome, the caller's dict
afterwards holds the signature token under the hashed-token key and the
public credential under the public-token key, and every other entry is
unchanged. -/
theorem send_request_mutates_caller_payload
    (sha1hex : String → String) (method path token_data : String)
    (payload : List (String × JSON)) (kh kp : String)
    (app : App.Application) (hk : kh ≠ kp) :
    (Http.prepare_request sha1hex method path token_data payload
        kh kp app).2 =
      dictSet (dictSet payload kh
        (.str (Http.create_token sha1hex token_data app))) kp
        (.str app.public_token) ∧
    dictGet (Http.prepare_request sha1hex method path token_data payload
        kh kp app).2 kh =
      some (.str (Http.create_token sha1hex token_data app)) ∧
    dictGet (Http.prepare_request sha1hex method path token_data payload
        kh kp app).2 kp = some (.str app.public_token) ∧
    ∀ k', k' ≠ kh → k' ≠ kp →
      dictGet (Http.prepare_request sha1hex method path token_data
          payload kh kp app).2 k' =
        dictGet payload k' := by
  have hsnd : (Http.prepare_request sha1hex method path token_data
      payload kh kp app).2 =
      dictSet (dictSet payload kh
        (.str (Http.create_token sha1hex token_data app))) kp
        (.str app.public_token) := by
    unfold Http.prepare_request
    split
    · rfl
    · split <;> rfl
  refine ⟨hsnd, ?_, ?_, ?_⟩
  · rw [hsnd, dictGet_dictSet, if_neg hk, dictGet_dictSet, if_pos rfl]
  · rw [hsnd, dictGet_dictSet, if_pos rfl]
  · intro k' h1 h2
    rw [hsnd, dictGet_dictSet, if_neg h2, dictGet_dictSet, if_neg h1]

/-- Witness for C10 on a concrete POST call: the caller's dict gains the
signature (digest of private credential plus seed) and the public
credential, and its original entry is untouched. -/
theorem send_request_mutates_caller_payload_witness :
    (Http.prepare_request (fun s => s) "POST" "p" "SEED"
        [("x", .str "1")] "token" "public_key"
        ⟨0, "n", "priv", "pub", none⟩).2 =
      [("x", .str "1"), ("token", .str "privSEED"),
        ("public_key", .str "pub")] ∧
    dictGet (Http.prepare_request (fun s => s) "POST" "p" "SEED"
        [("x", .str "1")] "token" "public_key"
        ⟨0, "n", "priv", "pub", none⟩).2 "token" =
      some (.str "privSEED") ∧
    dictGet (Http.prepare_request (fun s => s) "POST" "p" "SEED"
        [("x", .str "1")] "token" "public_key"
        ⟨0, "n", "priv", "pub", none⟩).2 "public_key" =
      some (.str "pub") ∧
    dictGet (Http.prepare_request (fun s => s) "POST" "p" "SEED"
        [("x", .str "1")] "token" "public_key"
        ⟨0, "n", "priv", "pub", none⟩).2 "x" =
      dictGet [("x", .str "1")] "x" :=
  have T := send_request_mutates_caller_payload (fun s => s) "POST" "p"
    "SEED" [("x", .str "1")] "token" "public_key"
    ⟨0, "n", "priv", "pub", none⟩ (by decide)
  ⟨T.1.trans (by rfl), T.2.1, T.2.2.1,
    T.2.2.2 "x" (by decide) (by decide)⟩

/-- C1: classification of the response stage of `send_request`: a decoded
envelope with a false success flag raises the remote-rejection error
carrying the envelope's payload; an undecodable body raises the transport
error when the HTTP status signals failure (400 and above) and re-raises
the decode failure (the protocol error) when the status signals
success. -/
theorem send_request_error_classification :
    (∀ (T : Type) (dT : JSON → Option T) (resp : Http.HttpResponse)
        (m : Http.Response T),
      Http.decodeResponseEnvelope dT resp.body = some m →
      m.success = false →
      Http.processResponse dT resp = .error (.remoteRejection m.payload)) ∧
    (∀ (T : Type) (dT : JSON → Option T) (resp : Http.HttpResponse),
      Http.decodeResponseEnvelope dT resp.body = none →
      400 ≤ resp.status →
      Http.processResponse dT resp = .error (.transport resp.status)) ∧
    (∀ (T : Type) (dT : JSON → Option T) (resp : Http.HttpResponse),
      Http.decodeResponseEnvelope dT resp.body = none →
      resp.status < 400 →
      Http.processResponse dT resp = .error .protocol) := by
  refine ⟨?_, ?_, ?_⟩
  · intro T dT resp m hdec hsucc
    unfold Http.processResponse
    rw [hdec]
    simp [hsucc, Http.parse_error]
  · intro T dT resp hdec hstatus
    unfold Http.processResponse
    rw [hdec]
    simp [hstatus]
  · intro T dT resp hdec hstatus
    unfold Http.processResponse
    rw [hdec]
    simp [Nat.not_le.mpr hstatus]

/-- Witness for C1 at the city-list response shape: a false envelope with
message X raises the rejection error carrying X; a malformed body raises
the transport error at status 500 and the protocol error at status
200. -/
theorem send_request_error_classification_witness :
    Http.processResponse Courier.decodeCityList
        ⟨200, .obj [("respuesta", .bool false), ("resultado", .str "X")]⟩ =
      .error (.remoteRejection (.inr "X")) ∧
    Http.processResponse Courier.decodeCityList ⟨500, .str "garbage"⟩ =
      .error (.transport 500) ∧
    Http.processResponse Courier.decodeCityList ⟨200, .str "garbage"⟩ =
      .error .protocol :=
  ⟨send_request_error_classification.1 _ Courier.decodeCityList
      ⟨200, .obj [("respuesta", .bool false), ("resultado", .str "X")]⟩
      ⟨false, .inr "X"⟩ rfl rfl,
    send_request_error_classification.2.1 _ Courier.decodeCityList
      ⟨500, .str "garbage"⟩ rfl (by decide),
    send_request_error_classification.2.2 _ Courier.decodeCityList
      ⟨200, .str "garbage"⟩ rfl (by decide)⟩

/-- C4 counterexample: the envelope's payload field is typed as the
requested shape OR a raw string, so a success-flagged envelope whose
payload is a string that does not decode as the requested city-list shape
is returned as that string instead of raising a protocol error. -/
theorem send_request_shape_mismatch_counterexample :
    Http.processResponse Courier.decodeCityList
        ⟨200, .obj [("respuesta", .bool true), ("resultado", .str "oops")]⟩ =
      .ok (.inr "oops") ∧
    Courier.decodeCityList (.str "oops") = none :=
  ⟨rfl, rfl⟩

/-- C4 (amended): a success-flagged envelope returns its decoded payload
as is; when the returned payload is in the requested-shape arm it really
was decoded by the requested shape's decoder, but a string payload (or a
missing payload field, which defaults to the empty string) is returned as
a plain string rather than raising a protocol error. -/
theorem send_request_success_payload_typing :
    (∀ (T : Type) (dT : JSON → Option T) (resp : Http.HttpResponse)
        (m : Http.Response T),
      Http.decodeResponseEnvelope dT resp.body = some m →
      m.success = true →
      Http.processResponse dT resp = .ok m.payload) ∧
    (∀ (T : Type) (dT : JSON → Option T) (j : JSON) (t : T),
      Http.decodePayloadUnion dT j = some (.inl t) → dT j = some t) ∧
    (∀ (T : Type) (dT : JSON → Option T) (s : String),
      Http.decodePayloadUnion dT (.str s) = some (.inr s)) ∧
    (∀ (T : Type) (dT : JSON → Option T) (b : JSON) (success : Bool),
      b.field "respuesta" = some (.bool success) →
      b.field "resultado" = none →
      Http.decodeResponseEnvelope dT b = some ⟨success, .inr ""⟩) := by
  refine ⟨?_, ?_, ?_, ?_⟩
  · intro T dT resp m hdec hsucc
    unfold Http.processResponse
    rw [hdec]
    simp [hsucc]
  · intro T dT j t h
    have key : ∀ (x : JSON),
        (dT x).map (Sum.inl : T → T ⊕ String) = some (Sum.inl t) →
        dT x = some t := by
      intro x hx
      rcases hmap : dT x with _ | a
      · rw [hmap] at hx; simp at hx
      · rw [hmap] at hx
        simp only [Option.map_some', Option.some.injEq] at hx
        injection hx with hx2
        rw [hx2]
    cases j with
    | str s => simp [Http.decodePayloadUnion] at h
    | null => exact key _ h
    | bool b => exact key _ h
    | num n => exact key _ h
    | arr xs => exact key _ h
    | obj kvs => exact key _ h
  · intro T dT s
    rfl
  · intro T dT b success h1 h2
    unfold Http.decodeResponseEnvelope
    rw [h1, h2]
    rfl

/-- Witness for C4 (amended) at the city-list response shape: an empty
city array is returned decoded; an array payload returned in the
requested-shape arm decoded through the city-list decoder; a string
payload lands in the string arm; a missing payload field defaults to the
empty string. -/
theorem send_request_success_payload_typing_witness :
    Http.processResponse Courier.decodeCityList
        ⟨200, .obj [("respuesta", .bool true), ("resultado", .arr [])]⟩ =
      .ok (.inl []) ∧
    Courier.decodeCityList (.arr []) = some [] ∧
    Http.decodePayloadUnion Courier.decodeCityList (.str "oops") =
      some (.inr "oops") ∧
    Http.decodeResponseEnvelope Courier.decodeCityList
        (.obj [("respuesta", .bool true)]) = some ⟨true, .inr ""⟩ :=
  ⟨send_request_success_payload_typing.1 _ Courier.decodeCityList
      ⟨200, .obj [("respuesta", .bool true), ("resultado", .arr [])]⟩
      ⟨true, .inl []⟩ rfl rfl,
    send_request_success_payload_typing.2.1 _ Courier.decodeCityList
      (.arr []) [] rfl,
    send_request_success_payload_typing.2.2.1 _ Courier.decodeCityList
      "oops",
    send_request_success_payload_typing.2.2.2 _ Courier.decodeCityList
      (.obj [("respuesta", .bool true)]) true rfl rfl⟩

/-- C5 counterexample: a GET call whose payload holds a non-scalar,
non-list value (an object) is not rejected by any validation; the request
is prepared and handed to the HTTP client with the non-query-shaped
payload attached (the source only applies a static `cast`, a runtime
no-op). -/
theorem send_request_get_unvalidated_counterexample :
    (Http.prepare_request (fun s => s) "GET" "p" "SEED" [("x", .obj [])]
        "token" "public_key" ⟨0, "n", "priv", "pub", none⟩).1 =
      .ok ⟨"GET", "p", .query [("x", .obj []),
        ("token", .str "privSEED"), ("public_key", .str "pub")]⟩ ∧
    Http.isQueryShaped [("x", .obj [])] = false :=
  ⟨rfl, rfl⟩

/-- C5 (amended): for every GET-class method the call always proceeds to
the network step with the augmented payload attached as query parameters,
whatever shape the payload values have: the library performs no runtime
shape validation before encoding. -/
theorem send_request_get_no_runtime_validation
    (sha1hex : String → String) (method path token_data : String)
    (payload : List (String × JSON)) (kh kp : String)
    (app : App.Application)
    (h : Http.GET_METHODS.contains method = true) :
    (Http.prepare_request sha1hex method path token_data payload
        kh kp app).1 =
      .ok ⟨method, path, .query
        ((Http.prepare_request sha1hex method path token_data payload
          kh kp app).2)⟩ := by
  unfold Http.prepare_request
  have hm : method ∈ Http.GET_METHODS := by simpa using h
  simp [hm]

/-- Witness for C5 (amended): a concrete GET call proceeds with its
augmented payload as query parameters. -/
theorem send_request_get_no_runtime_validation_witness :
    (Http.prepare_request (fun s => s) "GET" "p" "SEED" [("q", .num 3)]
        "token" "public_key" ⟨0, "n", "priv", "pub", none⟩).1 =
      .ok ⟨"GET", "p", .query
        ((Http.prepare_request (fun s => s) "GET" "p" "SEED"
          [("q", .num 3)] "token" "public_key"
          ⟨0, "n", "priv", "pub", none⟩).2)⟩ :=
  send_request_get_no_runtime_validation (fun s => s) "GET" "p" "SEED"
    [("q", .num 3)] "token" "public_key" ⟨0, "n", "priv", "pub", none⟩
    (by decide)

/-- A successful full-product decode agrees with the discriminant-only
decode on the log type (both read the same `tipo_aviso` field). -/
theorem decodeProductLog_base (raw : JSON) (p : Sync.ProductLog)
    (h : Sync.decodeProductLog raw = some p) :
    Sync.decodeLogBase raw = some ⟨p.log_type⟩ := by
  unfold Sync.decodeProductLog at h
  unfold Sync.decodeLogBase
  simp only [Option.bind_eq_bind', Option.bind_eq_some'] at h
  obtain ⟨t, ht, h⟩ := h
  obtain ⟨tk, htk, h⟩ := h
  obtain ⟨li, hli, h⟩ := h
  obtain ⟨ld, hld, h⟩ := h
  obtain ⟨qs, hqs, h⟩ := h
  obtain ⟨pi, hpi, h⟩ := h
  obtain ⟨pd, hpd, h⟩ := h
  simp only [Option.pure_def, Option.some.injEq] at h
  subst h
  obtain ⟨a, ha, hta⟩ := ht
  simp [ha, hta]

/-- A successful inventory-only decode agrees with the discriminant-only
decode on the log type (both read the same `tipo_aviso` field). -/
theorem decodeInventoryLog_base (raw : JSON) (q : Sync.InventoryLog)
    (h : Sync.decodeInventoryLog raw = some q) :
    Sync.decodeLogBase raw = some ⟨q.log_type⟩ := by
  unfold Sync.decodeInventoryLog at h
  unfold Sync.decodeLogBase
  simp only [Option.bind_eq_bind', Option.bind_eq_some'] at h
  obtain ⟨t, ht, h⟩ := h
  obtain ⟨tk, htk, h⟩ := h
  obtain ⟨li, hli, h⟩ := h
  obtain ⟨ld, hld, h⟩ := h
  obtain ⟨qs, hqs, h⟩ := h
  obtain ⟨pi, hpi, h⟩ := h
  obtain ⟨pd, hpd, h⟩ := h
  obtain ⟨im, him, h⟩ := h
  obtain ⟨ci, hci, h⟩ := h
  obtain ⟨pc, hpc, h⟩ := h
  simp only [Option.pure_def, Option.some.injEq] at h
  subst h
  obtain ⟨a, ha, hta⟩ := ht
  simp [ha, hta]

/-- Every entry of a successfully parsed entry list comes from one raw
entry parsed on its own. -/
theorem parse_log_entries_mem (l : List JSON)
    (out : List (Sync.ProductLog ⊕ Sync.InventoryLog))
    (h : Sync.parse_log_entries l = .ok out) :
    ∀ e ∈ out, ∃ raw, Sync.parse_log_entry raw = .ok e := by
  induction l generalizing out with
  | nil =>
    unfold Sync.parse_log_entries at h
    simp only [Except.ok.injEq] at h
    subst h
    intro e he
    simp at he
  | cons raw rest ih =>
    unfold Sync.parse_log_entries at h
    cases hr : Sync.parse_log_entry raw with
    | error e0 => rw [hr] at h; simp at h
    | ok entry =>
      rw [hr] at h
      cases hrest : Sync.parse_log_entries rest with
      | error e0 => rw [hrest] at h; simp at h
      | ok entries =>
        rw [hrest] at h
        simp only [Except.ok.injEq] at h
        subst h
        intro e he
        rcases List.mem_cons.mp he with he | he
        · exact ⟨raw, he ▸ hr⟩
        · exact ih entries hrest e he

/-- An entry parsed into the full-product shape really decoded through
that shape, and its discriminant is a product-creation or
product-modification type. -/
theorem parse_log_entry_inl (raw : JSON) (p : Sync.ProductLog)
    (h : Sync.parse_log_entry raw = .ok (.inl p)) :
    Sync.decodeProductLog raw = some p ∧
      p.log_type.isProductLog = true := by
  unfold Sync.parse_log_entry at h
  split at h
  · simp at h
  · rename_i base hbase
    split at h
    · rename_i hpt
      split at h
      · rename_i p2 hdec
        simp only [Except.ok.injEq, Sum.inl.injEq] at h
        subst h
        refine ⟨hdec, ?_⟩
        have hb2 := decodeProductLog_base raw p2 hdec
        rw [hbase] at hb2
        simp only [Option.some.injEq] at hb2
        rw [hb2] at hpt
        exact hpt
      · simp at h
    · split at h
      · simp at h
      · simp at h

/-- An entry parsed into the inventory-only shape really decoded through
that shape, and its discriminant is a recognized type that is neither
product creation nor product modification. -/
theorem parse_log_entry_inr (raw : JSON) (q : Sync.InventoryLog)
    (h : Sync.parse_log_entry raw = .ok (.inr q)) :
    Sync.decodeInventoryLog raw = some q ∧
      q.log_type.isProductLog = false := by
  unfold Sync.parse_log_entry at h
  split at h
  · simp at h
  · rename_i base hbase
    split at h
    · split at h
      · simp at h
      · simp at h
    · rename_i hpt
      split at h
      · rename_i q2 hdec
        simp only [Except.ok.injEq, Sum.inr.injEq] at h
        subst h
        refine ⟨hdec, ?_⟩
        have hb2 := decodeInventoryLog_base raw q2 hdec
        rw [hbase] at hb2
        simp only [Option.some.injEq] at hb2
        rw [hb2] at hpt
        exact Bool.eq_false_iff.mpr hpt
      · simp at h

/-- C8: the synchronization decode reads the discriminant first and then
decodes the whole entry as the full-product shape exactly for
product-creation and product-modification events and as the
inventory-only shape for every other recognized event; an unrecognized
discriminant fails with the unknown-log-type decode error instead of
being decoded as either shape, and every entry of a successfully parsed
message obeys the dispatch. -/
theorem parse_syncronization_discriminated_dispatch :
    (∀ raw p, Sync.parse_log_entry raw = .ok (.inl p) →
      Sync.decodeProductLog raw = some p ∧
        p.log_type.isProductLog = true) ∧
    (∀ raw q, Sync.parse_log_entry raw = .ok (.inr q) →
      Sync.decodeInventoryLog raw = some q ∧
        q.log_type.isProductLog = false) ∧
    (∀ raw, Sync.decodeLogBase raw = none →
      Sync.parse_log_entry raw = .error .unknownLogType) ∧
    (∀ msg req, Sync.parse_syncronization msg = .ok req →
      ∀ e ∈ req.data,
        (∀ p, e = .inl p → p.log_type.isProductLog = true) ∧
        (∀ q, e = .inr q → q.log_type.isProductLog = false)) := by
  refine ⟨fun raw p h => parse_log_entry_inl raw p h,
    fun raw q h => parse_log_entry_inr raw q h, ?_, ?_⟩
  · intro raw hbase
    unfold Sync.parse_log_entry
    rw [hbase]
  · intro msg req h e he
    unfold Sync.parse_syncronization at h
    split at h
    · simp at h
    · rename_i r hreq
      split at h
      · simp at h
      · rename_i parsed hent
        simp only [Except.ok.injEq] at h
        subst h
        obtain ⟨raw, hraw⟩ :=
          parse_log_entries_mem r.data parsed hent e he
        constructor
        · intro p hep
          subst hep
          exact (parse_log_entry_inl raw p hraw).2
        · intro q heq
          subst heq
          exact (parse_log_entry_inr raw q hraw).2

/-- Witness for C8: a creation log decodes as the full-product shape, a
sold-order log as the inventory-only shape, an unrecognized discriminant
value 9 raises the unknown-log-type error, and an entry of a fully
parsed message obeys the dispatch. -/
theorem parse_syncronization_discriminated_dispatch_witness :
    Sync.decodeProductLog Samples.productLogJSON =
      some Samples.productLogVal ∧
    Samples.productLogVal.log_type.isProductLog = true ∧
    Sync.decodeInventoryLog Samples.inventoryLogJSON =
      some Samples.inventoryLogVal ∧
    Samples.inventoryLogVal.log_type.isProductLog = false ∧
    Sync.parse_log_entry Samples.unknownLogJSON =
      .error .unknownLogType ∧
    Samples.inventoryLogVal.log_type.isProductLog = false :=
  have T := parse_syncronization_discriminated_dispatch
  have h1 := T.1 Samples.productLogJSON Samples.productLogVal rfl
  have h2 := T.2.1 Samples.inventoryLogJSON Samples.inventoryLogVal rfl
  ⟨h1.1, h1.2, h2.1, h2.2,
    T.2.2.1 Samples.unknownLogJSON rfl,
    (T.2.2.2 Samples.syncMsgJSON
        ⟨"tp", "hk", [.inr Samples.inventoryLogVal]⟩ rfl
        (.inr Samples.inventoryLogVal)
        (List.mem_singleton.mpr rfl)).2 Samples.inventoryLogVal rfl⟩

end Pagopar
